import Mathlib

/-!
Shallow embedding of `src/cards/build_english.py`, the assembler script of the
flashcard-system repository:

```
files = sorted(glob.glob(os.path.join(base, "sec_*.json")))
cards = []
for f in files:
    with open(f, "r", encoding="utf-8") as fh:
        cards.extend(json.load(fh))
for i, c in enumerate(cards, 1):
    c["id"] = i
with open(out, "w", encoding="utf-8") as fh:
    json.dump(cards, fh, ensure_ascii=False, indent=2)
print(f"Assembled {len(cards)} cards into {out}")
```

Modelling choices:
* JSON values are the inductive `Json`; numbers are modelled as integers
  (every number the script itself manipulates is a 1-based index) and objects
  as their key/value pairs in Python dict insertion order.
* The sections directory is an `Option (List String)` - `none` for a missing
  or unreadable directory, `some names` for its entries in unspecified OS
  order (`glob.glob` gives no ordering guarantee; the script sorts).  File
  contents are a function `String → Json` giving the parsed value of each
  partition file; all inputs exercised by the claims are well-formed JSON
  texts, so `json.load`'s decode step is abstracted to its result.
* All file names share the directory prefix `base`, so lexicographic order of
  full paths coincides with lexicographic order of the names modelled here.
* A Python exception that escapes the script is an `Except.error`; the
  process then exits non-zero and the output file has not been touched,
  since the only write happens after both loops have finished.
-/

/-- JSON values as produced by Python's `json.load`. -/
inductive Json where
  | null
  | bool (b : Bool)
  | num (n : Int)
  | str (s : String)
  | arr (elems : List Json)
  | obj (fields : List (String × Json))

/-- The one kind of runtime failure the script can hit on parsed input:
`TypeError`, raised by `list.extend` on a non-iterable and by item assignment
`c["id"] = i` on a non-dict. -/
inductive PyError where
  | typeError
deriving DecidableEq

/-- Lexicographic comparison of character lists by code point - the order
Python's `sorted` uses on strings. -/
def charsLe : List Char → List Char → Bool
  | [], _ => true
  | _ :: _, [] => false
  | a :: as, b :: bs => if a = b then charsLe as bs else decide (a < b)

/-- `hasPre s p` holds when `p` is an initial segment of `s`. -/
def hasPre : List Char → List Char → Bool
  | _, [] => true
  | [], _ :: _ => false
  | c :: cs, p :: ps => c = p && hasPre cs ps

/-- The glob pattern `sec_*.json`: names that start with `sec_`, end with
`.json`, and are long enough that the two parts do not overlap (`*` matches
the possibly empty middle). -/
def matchesSec (s : String) : Bool :=
  hasPre s.data "sec_".data && hasPre s.data.reverse ".json".data.reverse
    && decide (9 ≤ s.data.length)

/-- Model of `glob.glob(os.path.join(base, "sec_*.json"))`: the matching
entries of the sections directory, in unspecified order; a missing or
unreadable directory yields no entries (glob raises nothing). -/
def globSec (listing : Option (List String)) : List String :=
  (listing.getD []).filter matchesSec

/-- Python's string order as a relation, for sorting. -/
def fileLe (a b : String) : Prop := charsLe a.data b.data = true

instance : DecidableRel fileLe := fun a b =>
  inferInstanceAs (Decidable (charsLe a.data b.data = true))

/-- Discovery, `files = sorted(glob.glob(...))`: the discovered partitions in
lexical order.  `List.insertionSort` is a stable sort, as Python's `sorted`
is. -/
def files (listing : Option (List String)) : List String :=
  List.insertionSort fileLe (globSec listing)

/-- One step of `cards.extend(json.load(fh))`: Python iterates a list over its
elements, a dict over its keys (strings, in insertion order), a string over
its one-character substrings; `None`, booleans and numbers are not iterable
and raise `TypeError`. -/
def extendItems : Json → Except PyError (List Json)
  | .arr xs => .ok xs
  | .obj fs => .ok (fs.map fun kv => .str kv.1)
  | .str s => .ok (s.data.map fun c => .str (String.mk [c]))
  | _ => .error .typeError

/-- The first loop: `for f in files: cards.extend(json.load(fh))`.
The first exception aborts the run. -/
def gatherCards (contents : String → Json) : List String → Except PyError (List Json)
  | [] => .ok []
  | f :: rest =>
    match extendItems (contents f) with
    | .error e => .error e
    | .ok xs =>
      match gatherCards contents rest with
      | .error e => .error e
      | .ok ys => .ok (xs ++ ys)

/-- Python dict item assignment `d[k] = v`: overwrite in place if the key is
present (keeping its position), append otherwise. -/
def setField (k : String) (v : Json) : List (String × Json) → List (String × Json)
  | [] => [(k, v)]
  | (k', v') :: rest => if k' = k then (k, v) :: rest else (k', v') :: setField k v rest

/-- The second loop: `for i, c in enumerate(cards, 1): c["id"] = i`, with the
running index starting at `k`.  Item assignment on a non-dict element raises
`TypeError`. -/
def assignIds (k : Nat) : List Json → Except PyError (List Json)
  | [] => .ok []
  | .obj fields :: rest =>
    match assignIds (k + 1) rest with
    | .error e => .error e
    | .ok rest' => .ok (.obj (setField "id" (.num k) fields) :: rest')
  | _ :: _ => .error .typeError

/-- The destination path `out` hardcoded in the script. -/
def outPath : String := "/Users/israasaleh/flashcard-system/cards/english.json"

/-- What a successful run leaves behind: the value serialized by `json.dump`
into `english.json`, and the line printed to the operator. -/
structure RunResult where
  artifact : Json
  summary : String

/-- The script's tail (lines 15-21): renumber the gathered cards, dump the
array, print the summary.  A `TypeError` in the loop aborts before the
write. -/
def numberAndWrite (cards : List Json) : Except PyError RunResult :=
  match assignIds 1 cards with
  | .error e => .error e
  | .ok numbered =>
    .ok ⟨Json.arr numbered, "Assembled " ++ toString numbered.length ++ " cards into " ++ outPath⟩

/-- The script body after discovery: gather, renumber, write, report.  An
error anywhere aborts before the write, so no `RunResult` is produced. -/
def buildFrom (fs : List String) (contents : String → Json) : Except PyError RunResult :=
  match gatherCards contents fs with
  | .error e => .error e
  | .ok cards => numberAndWrite cards

/-- The whole script run against a given sections directory and file
contents. -/
def build_english (listing : Option (List String)) (contents : String → Json) :
    Except PyError RunResult :=
  buildFrom (files listing) contents

/-- Process exit status: 0 on success, nonzero (an uncaught exception) on
error. -/
def exitCode (r : Except PyError RunResult) : Nat :=
  match r with
  | .ok _ => 0
  | .error _ => 1

/-- Field access on a record: `Json.obj` looks the key up, anything else has
no fields. -/
def getField (k : String) : Json → Option Json
  | .obj fields => List.lookup k fields
  | _ => none

/-- Whether a value is a JSON object (a Python dict). -/
def Json.isObj : Json → Bool
  | .obj _ => true
  | _ => false

/-- The record list carried by the output artifact. -/
def records : Json → List Json
  | .arr xs => xs
  | _ => []

/-! ### Order lemmas for the discovery sort -/

theorem charsLe_total : ∀ a b : List Char, charsLe a b = true ∨ charsLe b a = true
  | [], _ => .inl rfl
  | _ :: _, [] => .inr rfl
  | a :: as, b :: bs => by
    by_cases hab : a = b
    · subst hab
      simpa [charsLe] using charsLe_total as bs
    · rcases lt_or_gt_of_ne hab with h | h
      · left; simp [charsLe, hab, h]
      · right; simp [charsLe, Ne.symm hab, h]

theorem charsLe_trans : ∀ a b c : List Char,
    charsLe a b = true → charsLe b c = true → charsLe a c = true
  | [], _, _, _, _ => rfl
  | _ :: _, [], _, h1, _ => by simp [charsLe] at h1
  | _ :: _, _ :: _, [], _, h2 => by simp [charsLe] at h2
  | a :: as, b :: bs, c :: cs, h1, h2 => by
    simp only [charsLe] at h1 h2 ⊢
    by_cases hab : a = b <;> by_cases hbc : b = c
    · subst hab; subst hbc
      rw [if_pos rfl] at h1 h2 ⊢
      exact charsLe_trans as bs cs h1 h2
    · subst hab
      rw [if_neg hbc] at h2 ⊢
      exact h2
    · subst hbc
      rw [if_neg hab] at h1 ⊢
      exact h1
    · rw [if_neg hab] at h1
      rw [if_neg hbc] at h2
      have hac : a < c := lt_trans (of_decide_eq_true h1) (of_decide_eq_true h2)
      rw [if_neg (ne_of_lt hac)]
      exact decide_eq_true hac

theorem charsLe_antisymm : ∀ a b : List Char,
    charsLe a b = true → charsLe b a = true → a = b
  | [], [], _, _ => rfl
  | [], _ :: _, _, h2 => by simp [charsLe] at h2
  | _ :: _, [], h1, _ => by simp [charsLe] at h1
  | a :: as, b :: bs, h1, h2 => by
    simp only [charsLe] at h1 h2
    by_cases hab : a = b
    · subst hab
      rw [if_pos rfl] at h1 h2
      rw [charsLe_antisymm as bs h1 h2]
    · rw [if_neg hab] at h1
      rw [if_neg (Ne.symm hab)] at h2
      exact absurd (of_decide_eq_true h2) (lt_asymm (of_decide_eq_true h1))

instance : IsTotal String fileLe := ⟨fun a b => charsLe_total a.data b.data⟩

instance : IsTrans String fileLe := ⟨fun a b c => charsLe_trans a.data b.data c.data⟩

instance : IsAntisymm String fileLe :=
  ⟨fun a b h1 h2 => congrArg String.mk (charsLe_antisymm a.data b.data h1 h2)⟩

theorem files_sorted (listing : Option (List String)) :
    List.Sorted fileLe (files listing) :=
  List.sorted_insertionSort fileLe (globSec listing)

theorem files_perm (listing : Option (List String)) :
    (files listing).Perm (globSec listing) :=
  List.perm_insertionSort fileLe (globSec listing)

/-- Discovery is insensitive to the unspecified OS enumeration order: any two
permutations of the directory listing sort to the same file list. -/
theorem files_eq_of_perm {l1 l2 : List String} (h : l1.Perm l2) :
    files (some l1) = files (some l2) := by
  have hp : (files (some l1)).Perm (files (some l2)) :=
    ((files_perm (some l1)).trans (List.Perm.filter matchesSec h)).trans
      (files_perm (some l2)).symm
  exact List.eq_of_perm_of_sorted hp (files_sorted _) (files_sorted _)

/-! ### Dict update lemmas -/

theorem lookup_setField_self (k : String) (v : Json) :
    ∀ l, List.lookup k (setField k v l) = some v
  | [] => by simp [setField, List.lookup]
  | (k', v') :: rest => by
    by_cases h : k' = k
    · subst h; simp [setField, List.lookup]
    · simp only [setField, if_neg h, List.lookup_cons, beq_false_of_ne (Ne.symm h)]
      exact lookup_setField_self k v rest

theorem lookup_setField_ne (k key : String) (hne : key ≠ k) (v : Json) :
    ∀ l, List.lookup key (setField k v l) = List.lookup key l
  | [] => by simp [setField, List.lookup, beq_false_of_ne hne]
  | (k', v') :: rest => by
    by_cases h : k' = k
    · subst h
      simp [setField, List.lookup_cons, beq_false_of_ne hne]
    · simp only [setField, if_neg h, List.lookup_cons]
      cases hkk : key == k' with
      | true => rfl
      | false => exact lookup_setField_ne k key hne v rest

/-! ### Concatenation lemmas -/

/-- When every processed file holds an array, the first loop succeeds and
produces exactly the concatenation of those arrays in file order. -/
theorem gatherCards_eq_flat (contents : String → Json) (recs : String → List Json) :
    ∀ fs : List String, (∀ f ∈ fs, contents f = Json.arr (recs f)) →
      gatherCards contents fs = .ok (fs.flatMap recs)
  | [], _ => rfl
  | f :: rest, h => by
    have hf : contents f = Json.arr (recs f) := h f (.head rest)
    have hrest := gatherCards_eq_flat contents recs rest (fun g hg => h g (.tail f hg))
    simp [gatherCards, hf, extendItems, hrest, List.flatMap_cons]

/-- If some processed file holds a dict with at least one key, the first loop
either fails or leaves a string (the first key) among the gathered cards. -/
theorem gatherCards_key_mem (contents : String → Json) (f : String)
    (kv : String × Json) (fields : List (String × Json)) :
    ∀ (fs : List String) (cards : List Json), f ∈ fs →
      contents f = Json.obj (kv :: fields) →
      gatherCards contents fs = .ok cards → Json.str kv.1 ∈ cards := by
  intro fs
  induction fs with
  | nil => intro cards hmem; exact absurd hmem (List.not_mem_nil f)
  | cons g rest ih =>
    intro cards hmem hf h
    simp only [gatherCards] at h
    cases hx : extendItems (contents g) with
    | error e => rw [hx] at h; exact absurd h (by simp)
    | ok xs =>
      rw [hx] at h
      cases hrest : gatherCards contents rest with
      | error e => rw [hrest] at h; exact absurd h (by simp)
      | ok ys =>
        rw [hrest] at h
        injection h with h
        rcases List.mem_cons.mp hmem with heq | hmem'
        · subst heq
          rw [hf] at hx
          simp only [extendItems] at hx
          injection hx with hx
          rw [← h, ← hx]
          exact List.mem_append_left ys (by simp)
        · rw [← h]
          exact List.mem_append_right xs (ih ys hmem' hf hrest)

/-! ### Renumbering lemmas -/

/-- A successful renumbering pass preserves the record count. -/
theorem assignIds_length (cards : List Json) :
    ∀ k out, assignIds k cards = .ok out → out.length = cards.length := by
  induction cards with
  | nil =>
    intro k out h
    injection h with h
    simp [← h]
  | cons c rest ih =>
    intro k out h
    cases c with
    | obj fields =>
      simp only [assignIds] at h
      cases hrest : assignIds (k + 1) rest with
      | error e => rw [hrest] at h; exact absurd h (by simp)
      | ok rest' =>
        rw [hrest] at h
        injection h with h
        rw [← h]
        simp [ih (k + 1) rest' hrest]
    | null => exact absurd h (by simp [assignIds])
    | bool b => exact absurd h (by simp [assignIds])
    | num n => exact absurd h (by simp [assignIds])
    | str s => exact absurd h (by simp [assignIds])
    | arr xs => exact absurd h (by simp [assignIds])

/-- After a successful renumbering pass started at `k`, the record at
position `i` carries `id = k + i`. -/
theorem assignIds_get_id (cards : List Json) :
    ∀ k out, assignIds k cards = .ok out →
      ∀ i (hi : i < out.length),
        getField "id" (out.get ⟨i, hi⟩) = some (Json.num (k + i)) := by
  induction cards with
  | nil =>
    intro k out h i hi
    injection h with h
    rw [← h] at hi
    exact absurd hi (by simp)
  | cons c rest ih =>
    intro k out h i hi
    cases c with
    | obj fields =>
      simp only [assignIds] at h
      cases hrest : assignIds (k + 1) rest with
      | error e => rw [hrest] at h; exact absurd h (by simp)
      | ok rest' =>
        rw [hrest] at h
        injection h with h
        subst h
        cases i with
        | zero =>
          simp [List.get_cons_zero, getField, lookup_setField_self]
        | succ j =>
          rw [List.get_cons_succ]
          have e : ((k : Int) + ((j + 1 : Nat) : Int)) = (((k + 1 : Nat) : Int) + (j : Int)) := by
            push_cast
            ring
          rw [e]
          exact ih (k + 1) rest' hrest j (by simpa using hi)
    | null => exact absurd h (by simp [assignIds])
    | bool b => exact absurd h (by simp [assignIds])
    | num n => exact absurd h (by simp [assignIds])
    | str s => exact absurd h (by simp [assignIds])
    | arr xs => exact absurd h (by simp [assignIds])

/-- Renumbering touches only `id`: any other key reads the same before and
after, position by position. -/
theorem assignIds_get_other (cards : List Json) :
    ∀ k out, assignIds k cards = .ok out →
      ∀ i (hi : i < out.length) (hi' : i < cards.length) (key : String), key ≠ "id" →
        getField key (out.get ⟨i, hi⟩) = getField key (cards.get ⟨i, hi'⟩) := by
  induction cards with
  | nil =>
    intro k out h i hi
    injection h with h
    rw [← h] at hi
    exact absurd hi (by simp)
  | cons c rest ih =>
    intro k out h i hi hi' key hk
    cases c with
    | obj fields =>
      simp only [assignIds] at h
      cases hrest : assignIds (k + 1) rest with
      | error e => rw [hrest] at h; exact absurd h (by simp)
      | ok rest' =>
        rw [hrest] at h
        injection h with h
        subst h
        cases i with
        | zero =>
          simp [List.get_cons_zero, getField, lookup_setField_ne "id" key hk]
        | succ j =>
          rw [List.get_cons_succ, List.get_cons_succ]
          exact ih (k + 1) rest' hrest j (by simpa using hi) (by simpa using hi') key hk
    | null => exact absurd h (by simp [assignIds])
    | bool b => exact absurd h (by simp [assignIds])
    | num n => exact absurd h (by simp [assignIds])
    | str s => exact absurd h (by simp [assignIds])
    | arr xs => exact absurd h (by simp [assignIds])

/-- Renumbering succeeds only over dicts: every input element of a successful
pass is an object. -/
theorem assignIds_all_obj (cards : List Json) :
    ∀ k out, assignIds k cards = .ok out → ∀ c ∈ cards, c.isObj = true := by
  induction cards with
  | nil => intro k out _ c hc; exact absurd hc (List.not_mem_nil c)
  | cons d rest ih =>
    intro k out h c hc
    cases d with
    | obj fields =>
      simp only [assignIds] at h
      cases hrest : assignIds (k + 1) rest with
      | error e => rw [hrest] at h; exact absurd h (by simp)
      | ok rest' =>
        rcases List.mem_cons.mp hc with heq | hmem
        · subst heq; rfl
        · exact ih (k + 1) rest' hrest c hmem
    | null => exact absurd h (by simp [assignIds])
    | bool b => exact absurd h (by simp [assignIds])
    | num n => exact absurd h (by simp [assignIds])
    | str s => exact absurd h (by simp [assignIds])
    | arr xs => exact absurd h (by simp [assignIds])

/-- A non-dict anywhere in the card list makes the renumbering loop raise
`TypeError`. -/
theorem assignIds_error_of_mem (c : Json) (hc : c.isObj = false) :
    ∀ (cards : List Json) k, c ∈ cards → assignIds k cards = .error .typeError := by
  intro cards
  induction cards with
  | nil => intro k hmem; exact absurd hmem (List.not_mem_nil c)
  | cons d rest ih =>
    intro k hmem
    cases d with
    | obj fields =>
      rcases List.mem_cons.mp hmem with heq | hmem'
      · subst heq; exact absurd hc (by simp [Json.isObj])
      · simp only [assignIds]
        rw [ih (k + 1) hmem']
    | null => rfl
    | bool b => rfl
    | num n => rfl
    | str s => rfl
    | arr xs => rfl

/-- Inversion of a successful renumber-and-write step. -/
theorem numberAndWrite_ok_inv (cards : List Json) (r : RunResult)
    (h : numberAndWrite cards = .ok r) :
    ∃ numbered, assignIds 1 cards = .ok numbered ∧
      r = ⟨Json.arr numbered,
        "Assembled " ++ toString numbered.length ++ " cards into " ++ outPath⟩ := by
  revert h
  unfold numberAndWrite
  cases hn : assignIds 1 cards with
  | error e => intro h; exact absurd h (by simp)
  | ok numbered =>
    intro h
    injection h with h
    exact ⟨numbered, rfl, h.symm⟩

/-- Inversion of a successful run: both loops succeeded, and the result is
the renumbered card list with its summary line. -/
theorem buildFrom_ok_inv (fs : List String) (contents : String → Json) (r : RunResult)
    (h : buildFrom fs contents = .ok r) :
    ∃ cards numbered,
      gatherCards contents fs = .ok cards ∧ assignIds 1 cards = .ok numbered ∧
        r = ⟨Json.arr numbered,
          "Assembled " ++ toString numbered.length ++ " cards into " ++ outPath⟩ := by
  revert h
  unfold buildFrom
  cases hg : gatherCards contents fs with
  | error e => intro h; exact absurd h (by simp)
  | ok cards =>
    intro h
    have h' : numberAndWrite cards = .ok r := h
    obtain ⟨numbered, hn, hr⟩ := numberAndWrite_ok_inv cards r h'
    exact ⟨cards, numbered, rfl, hn, hr⟩

/-! ### The claims -/

/-- C1: in every successful run of the assembler, the output record at
position i (1-based: index i-1) has `id == i`; prior `id` values are
overwritten and the field is added if absent, so the output ids are exactly
the contiguous sequence 1..N for N the output record count. -/
theorem renumbering_property (listing : Option (List String)) (contents : String → Json)
    (r : RunResult) (h : build_english listing contents = .ok r) :
    ∀ i (hi : i < (records r.artifact).length),
      getField "id" ((records r.artifact).get ⟨i, hi⟩) = some (Json.num (i + 1)) := by
  intro i hi
  obtain ⟨cards, numbered, hg, hn, hr⟩ := buildFrom_ok_inv (files listing) contents r h
  subst hr
  have key := assignIds_get_id cards 1 numbered hn i hi
  have e : ((i : Int) + 1) = (((1 : Nat) : Int) + (i : Int)) := by push_cast; ring
  rw [e]
  exact key

/-- C1 witness: a one-record run in which the sole output record gets
`id = 1`. -/
theorem renumbering_property_witness :
    getField "id" ((records (Json.arr [Json.obj [("id", Json.num 1)]])).get ⟨0, by decide⟩) =
      some (Json.num 1) :=
  renumbering_property (some ["sec_1.json"]) (fun _ => Json.arr [Json.obj []])
    ⟨Json.arr [Json.obj [("id", Json.num 1)]], "Assembled 1 cards into " ++ outPath⟩
    rfl 0 (by decide)

/-- C2: when every partition file holds an array of records, the gathering
loop yields exactly the concatenation of those arrays in file order - no
reordering, dropping, or duplication within or across partitions. -/
theorem ordering_property (fs : List String) (contents : String → Json)
    (recs : String → List Json) (h : ∀ f ∈ fs, contents f = Json.arr (recs f)) :
    gatherCards contents fs = .ok (fs.flatMap recs) :=
  gatherCards_eq_flat contents recs fs h

/-- C2 witness: two one-record partitions concatenate in order. -/
theorem ordering_property_witness :
    gatherCards (fun _ => Json.arr [Json.obj []]) ["sec_1.json", "sec_2.json"] =
      .ok (["sec_1.json", "sec_2.json"].flatMap (fun _ => [Json.obj []])) :=
  ordering_property ["sec_1.json", "sec_2.json"] (fun _ => Json.arr [Json.obj []])
    (fun _ => [Json.obj []]) (fun _ _ => rfl)

/-- C3 counterexample: a partition file containing the single object `{}` is
well-formed JSON, so the build does NOT fail: `cards.extend` iterates the
dict's (zero) keys and the run succeeds with exit code 0, rewriting the
output file with an empty array - contradicting the claim that any
single-object partition aborts the build with `ParseError` and leaves the
output untouched. -/
theorem malformed_partition_counterexample :
    build_english (some ["sec_1.json"]) (fun _ => Json.obj []) =
      .ok ⟨Json.arr [], "Assembled 0 cards into " ++ outPath⟩ ∧
    exitCode (build_english (some ["sec_1.json"]) (fun _ => Json.obj [])) = 0 :=
  ⟨rfl, rfl⟩

/-- C3 (amended): a partition file containing a single object parses
successfully and is iterated over its keys; when the object has at least one
key, the build fails - with a `TypeError` at the id-assignment step, not a
`ParseError` at parse time - exiting non-zero with no output written (the
error model produces no artifact).  When the object is empty it contributes
zero records and the build succeeds. -/
theorem malformed_partition_amended (listing : Option (List String))
    (contents : String → Json) (f : String) (kv : String × Json)
    (fields : List (String × Json)) (hf : f ∈ files listing)
    (hc : contents f = Json.obj (kv :: fields)) :
    build_english listing contents = .error .typeError ∧
      exitCode (build_english listing contents) = 1 := by
  have hmain : build_english listing contents = .error .typeError := by
    cases hb : build_english listing contents with
    | error e => cases e; rfl
    | ok r =>
      obtain ⟨cards, numbered, hg, hn, -⟩ := buildFrom_ok_inv (files listing) contents r hb
      have hmem : Json.str kv.1 ∈ cards :=
        gatherCards_key_mem contents f kv fields (files listing) cards hf hc hg
      have herr := assignIds_error_of_mem (Json.str kv.1) rfl cards 1 hmem
      rw [herr] at hn
      exact absurd hn (by simp)
  exact ⟨hmain, by rw [hmain]; rfl⟩

/-- C3 witness: a partition holding the single object `{"a": null}` kills the
build with `TypeError` and exit code 1. -/
theorem malformed_partition_amended_witness :
    build_english (some ["sec_1.json"]) (fun _ => Json.obj [("a", Json.null)]) =
      .error .typeError ∧
    exitCode (build_english (some ["sec_1.json"]) (fun _ => Json.obj [("a", Json.null)])) = 1 :=
  malformed_partition_amended (some ["sec_1.json"]) (fun _ => Json.obj [("a", Json.null)])
    "sec_1.json" ("a", Json.null) [] (by decide) rfl

/-- C4 counterexample: with a missing (non-enumerable) source directory,
`glob.glob` returns no entries and the build SUCCEEDS, writing an empty
array - contradicting the claim that discovery fails with `DiscoveryError`. -/
theorem discovery_failure_counterexample :
    build_english none (fun _ => Json.null) =
      .ok ⟨Json.arr [], "Assembled 0 cards into " ++ outPath⟩ ∧
    exitCode (build_english none (fun _ => Json.null)) = 0 :=
  ⟨rfl, rfl⟩

/-- C4 (amended): when the source location does not exist or is not
enumerable, discovery succeeds with an empty partition list (glob reports
nothing), and the whole build then succeeds, writing an empty array; no
error of any kind is raised. -/
theorem discovery_failure_amended (contents : String → Json) :
    files none = [] ∧
      build_english none contents =
        .ok ⟨Json.arr [], "Assembled 0 cards into " ++ outPath⟩ :=
  ⟨rfl, rfl⟩

/-- C5: discovery returns the matching partition files sorted by name under
the total, deterministic lexical order (`fileLe`), and that sorted order is
the order in which the gathering loop assembles their records. -/
theorem partition_order (listing : List String) :
    List.Sorted fileLe (files (some listing)) ∧
    (files (some listing)).Perm (listing.filter matchesSec) ∧
    ∀ (contents : String → Json) (recs : String → List Json),
      (∀ f ∈ files (some listing), contents f = Json.arr (recs f)) →
      gatherCards contents (files (some listing)) =
        .ok ((files (some listing)).flatMap recs) :=
  ⟨files_sorted (some listing), files_perm (some listing),
   fun contents recs h => gatherCards_eq_flat contents recs _ h⟩

/-- C5 witness: a concrete two-file discovery assembled in sorted order. -/
theorem partition_order_witness :
    gatherCards (fun _ => Json.arr []) (files (some ["sec_2.json", "sec_1.json"])) =
      .ok ((files (some ["sec_2.json", "sec_1.json"])).flatMap (fun _ => ([] : List Json))) :=
  (partition_order ["sec_2.json", "sec_1.json"]).2.2 (fun _ => Json.arr [])
    (fun _ => []) (fun _ _ => rfl)

/-- C6: the renumbering pass is a frame over the payload - it keeps the
record count, and at every position every field other than `id` reads exactly
as it did on the source record (fields are never inspected, validated, or
altered; a record with missing payload fields passes through unchanged). -/
theorem payload_preservation (cards out : List Json) (h : assignIds 1 cards = .ok out) :
    out.length = cards.length ∧
    ∀ i (hi : i < out.length) (hi' : i < cards.length) (key : String), key ≠ "id" →
      getField key (out.get ⟨i, hi⟩) = getField key (cards.get ⟨i, hi'⟩) :=
  ⟨assignIds_length cards 1 out h,
   fun i hi hi' key hk => assignIds_get_other cards 1 out h i hi hi' key hk⟩

/-- C6 witness: the `term` field of a record survives renumbering while its
stale `id = 99` is replaced. -/
theorem payload_preservation_witness :
    getField "term" (Json.obj [("term", Json.str "hablar"), ("id", Json.num 1)]) =
      getField "term" (Json.obj [("term", Json.str "hablar"), ("id", Json.num 99)]) :=
  (payload_preservation [Json.obj [("term", Json.str "hablar"), ("id", Json.num 99)]]
      [Json.obj [("term", Json.str "hablar"), ("id", Json.num 1)]] rfl).2
    0 (by decide) (by decide) "term" (by decide)

/-- C7: when zero partitions are discovered, or every discovered partition is
an empty array, the build succeeds and the written artifact is an array of
length 0. -/
theorem empty_input_behavior (listing : Option (List String)) (contents : String → Json)
    (h : ∀ f ∈ files listing, contents f = Json.arr []) :
    build_english listing contents =
      .ok ⟨Json.arr [], "Assembled 0 cards into " ++ outPath⟩ := by
  have hg := gatherCards_eq_flat contents (fun _ => []) (files listing) (fun f hf => h f hf)
  have hflat : ∀ l : List String, l.flatMap (fun _ => ([] : List Json)) = [] := by
    intro l
    induction l with
    | nil => rfl
    | cons a t iht => simp [List.flatMap_cons, iht]
  rw [hflat] at hg
  simp only [build_english, buildFrom]
  rw [hg]
  rfl

/-- C7 witness: two discovered but empty partitions produce the empty-array
artifact. -/
theorem empty_input_behavior_witness :
    build_english (some ["sec_1.json", "sec_2.json"]) (fun _ => Json.arr []) =
      .ok ⟨Json.arr [], "Assembled 0 cards into " ++ outPath⟩ :=
  empty_input_behavior (some ["sec_1.json", "sec_2.json"]) (fun _ => Json.arr [])
    (fun _ _ => rfl)

/-- C8: the run is a pure function of the partition names and contents - in
particular it is invariant under the OS's arbitrary `glob` enumeration order,
so two runs over unchanged partitions produce the same artifact value and
summary, hence byte-for-byte identical output under any (deterministic)
serialization; no timestamp or other nondeterministic metadata exists in the
result. -/
theorem assembler_deterministic (l1 l2 : List String) (contents : String → Json)
    (h : l1.Perm l2) :
    build_english (some l1) contents = build_english (some l2) contents ∧
    ∀ ser : Json → String,
      Except.map (fun r => ser r.artifact) (build_english (some l1) contents) =
        Except.map (fun r => ser r.artifact) (build_english (some l2) contents) := by
  have he : build_english (some l1) contents = build_english (some l2) contents := by
    simp only [build_english]
    rw [files_eq_of_perm h]
  exact ⟨he, fun ser => by rw [he]⟩

/-- C8 witness: the two enumeration orders of the same two files build
identically. -/
theorem assembler_deterministic_witness :
    build_english (some ["sec_2.json", "sec_1.json"]) (fun _ => Json.arr []) =
      build_english (some ["sec_1.json", "sec_2.json"]) (fun _ => Json.arr []) :=
  (assembler_deterministic ["sec_2.json", "sec_1.json"] ["sec_1.json", "sec_2.json"]
    (fun _ => Json.arr []) (List.Perm.swap "sec_1.json" "sec_2.json" [])).1

/-- C9: a summary line is printed exactly on successful runs (the error model
produces none), and it reports the total assembled record count - the length
of the written dataset - and the destination path. -/
theorem success_report (listing : Option (List String)) (contents : String → Json)
    (r : RunResult) (h : build_english listing contents = .ok r) :
    r.summary =
      "Assembled " ++ toString (records r.artifact).length ++ " cards into " ++ outPath := by
  obtain ⟨cards, numbered, hg, hn, hr⟩ := buildFrom_ok_inv (files listing) contents r h
  subst hr
  rfl

/-- C9 witness: the empty run reports zero cards and the destination. -/
theorem success_report_witness :
    "Assembled 0 cards into " ++ outPath =
      "Assembled " ++ toString (records (Json.arr [])).length ++ " cards into " ++ outPath :=
  success_report none (fun _ => Json.null)
    ⟨Json.arr [], "Assembled 0 cards into " ++ outPath⟩ rfl

/-- C10: renumbering assigns `id` by key, so it succeeds only when every
gathered element is a JSON object; and a concrete partition array holding a
non-object element (here the string `"x"`) makes the id-assignment step raise
`TypeError` instead of producing a dataset. -/
theorem records_must_be_objects :
    (∀ (cards out : List Json), assignIds 1 cards = .ok out → ∀ c ∈ cards, c.isObj = true) ∧
    build_english (some ["sec_1.json"]) (fun _ => Json.arr [Json.str "x"]) =
      .error .typeError :=
  ⟨fun cards out h c hc => assignIds_all_obj cards 1 out h c hc, rfl⟩

/-- C10 witness: a successfully renumbered singleton list indeed consists of
objects. -/
theorem records_must_be_objects_witness : (Json.obj []).isObj = true :=
  records_must_be_objects.1 [Json.obj []] [Json.obj [("id", Json.num 1)]] rfl
    (Json.obj []) (List.Mem.head [])
